import Mathlib

set_option autoImplicit false

/-
Verification of the collective-communication coordination layer in
torch/csrc/distributed/c10d/ProcessGroup.cpp: the ProcessGroup backend
routing table and the pending-work registry (WorkRegistry) together with
its free-function facade (register_work / wait_tensor /
unregister_completed_works / get_work_registry_size).

Modelling conventions:
- `c10::intrusive_ptr<c10d::Work>` handles are modelled by `Work`
  (defined-ness of the pointer, completion state, and an identity tag).
- A tensor is modelled by whether it has backing storage and a key
  identifying its storage (`getWeakStorageImpl` yields a stable map key).
- The `std::unordered_map` registries are modelled as association lists
  with the find/emplace/erase discipline of the source; per-key list
  order (insertion order) is what the source relies on, and key
  uniqueness is maintained by the operations themselves.
- Blocking `wait()` calls and the destructor's effects are modelled as
  event traces so that "waits in insertion order" and "releases without
  waiting" are statable.
-/

namespace C10d

/-- Model of a `c10::intrusive_ptr<c10d::Work>` completion handle:
`defined` is pointer non-nullness (`work.defined()`), `completed` is the
result of `work->isCompleted()`, `wid` is an identity tag. -/
structure Work where
  defined : Bool
  completed : Bool
  wid : Nat
  deriving DecidableEq, Repr

/-- Model of an `at::Tensor` as seen by the registry: whether it has
backing storage (`tensor.has_storage()`) and the stable key of its
storage (`tensor.storage().getWeakStorageImpl()`), meaningful only when
`has_storage = true`. -/
structure Tensor where
  has_storage : Bool
  storageKey : Nat
  deriving DecidableEq, Repr

/-- Association-list lookup, the model of `unordered_map::find` /
`unordered_map::at`. -/
def alookup {α : Type} : List (Nat × α) → Nat → Option α
  | [], _ => none
  | (k, v) :: rest, key => if k = key then some v else alookup rest key

/-- Association-list in-place update of the value at a key (no-op when
the key is absent), the model of writing through a found iterator. -/
def aupdate {α : Type} (f : α → α) : List (Nat × α) → Nat → List (Nat × α)
  | [], _ => []
  | (k, v) :: rest, key =>
    if k = key then (k, f v) :: rest else (k, v) :: aupdate f rest key

/-- The registry map of `WorkRegistry`: weak storage reference to the
ordered list of pending work handles. -/
abbrev Registry := List (Nat × List Work)

/-- Model of `WorkRegistry::register_work`'s map mutation: append the
handle to the existing entry for the storage key, or emplace a fresh
singleton entry when absent. -/
def registerInto : Registry → Nat → Work → Registry
  | [], key, w => [(key, [w])]
  | (k, ws) :: rest, key, w =>
    if k = key then (k, ws ++ [w]) :: rest
    else (k, ws) :: registerInto rest key w

/-- Model of `unordered_map::erase(it)` for the entry found at a key
(no-op when absent). -/
def eraseKey : Registry → Nat → Registry
  | [], _ => []
  | (k, ws) :: rest, key => if k = key then rest else (k, ws) :: eraseKey rest key

/-- The predicate `work.defined() && !work->isCompleted()` from
`WorkRegistry::unregister_completed_works`: a handle survives pruning
exactly when it is defined and not completed. -/
def keepWork (w : Work) : Bool := w.defined && !w.completed

/-- Model of the loop body of `WorkRegistry::unregister_completed_works`:
for each entry, collect the handles satisfying `keepWork`; erase the
entry when none survive, otherwise replace its list with the survivors
(relative order preserved by the forward scan). -/
def pruneRegistry : Registry → Registry
  | [] => []
  | (k, ws) :: rest =>
    if (ws.filter keepWork).isEmpty then pruneRegistry rest
    else (k, ws.filter keepWork) :: pruneRegistry rest

/-- State of a `WorkRegistry` instance: the registry map plus the
sticky flag of the `TORCH_WARN_ONCE` in `register_work` (whether the
no-storage warning has already been emitted). -/
structure WorkRegistry where
  registry : Registry
  warned_no_storage : Bool
  deriving DecidableEq, Repr

/-- Model of `WorkRegistry::register_work(tensor, work)`. For a tensor
without backing storage it is a no-op on the map and emits a one-time
warning (second component: whether the warning was emitted by this
call); otherwise the handle is appended to the entry for the tensor's
storage. It never fails. -/
def WorkRegistry.register_work (s : WorkRegistry) (t : Tensor) (w : Work) :
    WorkRegistry × Bool :=
  if t.has_storage = false then
    ({ s with warned_no_storage := true }, !s.warned_no_storage)
  else
    ({ s with registry := registerInto s.registry t.storageKey w }, false)

/-- Model of `WorkRegistry::pop_works(tensor)`: remove and return the
full handle list for the tensor's storage (empty when absent). Only
meaningful for tensors with backing storage, as in the source where
`tensor.storage()` requires storage. -/
def WorkRegistry.pop_works (s : WorkRegistry) (t : Tensor) :
    List Work × WorkRegistry :=
  match alookup s.registry t.storageKey with
  | none => ([], s)
  | some ws => (ws, { s with registry := eraseKey s.registry t.storageKey })

/-- The external accelerator conditions consulted by
`WorkRegistry::can_unregister_completed_works` in a CUDA (non-ROCm)
build: `at::cuda::is_available()` and
`at::cuda::CUDAGraph::is_capturing()`. -/
structure AccelEnv where
  accel_available : Bool
  capturing : Bool
  deriving DecidableEq, Repr

/-- Model of `WorkRegistry::can_unregister_completed_works` as written
in the source (CUDA non-ROCm build): it returns false when the
accelerator is available and a capture is NOT in progress, and true
otherwise. -/
def WorkRegistry.can_unregister_completed_works (env : AccelEnv) : Bool :=
  if env.accel_available && !env.capturing then false else true

/-- Modelled from the spec: `canPrune()` "returns false when the
execution environment is mid-capture of a replay recording on an
accelerator that is currently available; true otherwise". This is the
intended behavior, to be compared with the source's
`WorkRegistry.can_unregister_completed_works`. -/
def canPrune_spec (env : AccelEnv) : Bool :=
  !(env.accel_available && env.capturing)

/-- Model of `WorkRegistry::unregister_completed_works`. -/
def WorkRegistry.unregister_completed_works (s : WorkRegistry) : WorkRegistry :=
  { s with registry := pruneRegistry s.registry }

/-- Model of `WorkRegistry::get_work_registry_size`: the sum of the
handle-list lengths over all entries, accumulated as in the source
loop. -/
def WorkRegistry.get_work_registry_size (s : WorkRegistry) : Nat :=
  s.registry.foldl (fun total e => total + e.2.length) 0

/-- Observable effects of `WorkRegistry::~WorkRegistry`: the leak
warning (with its reported count), the release of a held handle
reference (`work.release()`), and a blocking `work->wait()` (which the
destructor never performs). -/
inductive TeardownEvent where
  | warnUnwaited (count : Nat)
  | release (w : Work)
  | wait (w : Work)
  deriving DecidableEq, Repr

/-- Model of `WorkRegistry::~WorkRegistry` as its event trace: when the
registry size is positive, emit one warning carrying that count; then
release every held handle reference, entry by entry, without waiting on
any of them. The destructor neither blocks nor throws. -/
def WorkRegistry.teardown (s : WorkRegistry) : List TeardownEvent :=
  (if s.get_work_registry_size > 0 then
    [TeardownEvent.warnUnwaited s.get_work_registry_size]
  else []) ++ s.registry.flatMap (fun e => e.2.map TeardownEvent.release)

/-- Model of the free function `c10d::register_work`: opportunistically
prune completed works (only when `can_unregister_completed_works`
holds), then register the handle. -/
def c10d_register_work (env : AccelEnv) (s : WorkRegistry) (t : Tensor)
    (w : Work) : WorkRegistry × Bool :=
  let s1 := if WorkRegistry.can_unregister_completed_works env then
    s.unregister_completed_works
  else s
  s1.register_work t w

/-- Model of the free function `c10d::wait_tensor`: pop all works
registered against the tensor's storage and wait on each in order. The
first component is the sequence of `work->wait()` invocations performed
(in order); the second is the returned tensor; the third is the
registry state afterwards. -/
def c10d_wait_tensor (s : WorkRegistry) (t : Tensor) :
    List Work × Tensor × WorkRegistry :=
  ((s.pop_works t).1, t, (s.pop_works t).2)

/-- Repeated registration of a list of handles against one tensor, in
issuance order, via `WorkRegistry.register_work`. -/
def registerAll (s : WorkRegistry) (t : Tensor) (ws : List Work) : WorkRegistry :=
  ws.foldl (fun st w => (st.register_work t w).1) s

/-- Model of a `c10d::Backend` instance's settable identity state:
group UID (name), group description, and the collectives-timing flag. -/
structure Backend where
  groupUid : String
  groupDesc : String
  timingEnabled : Bool
  deriving DecidableEq, Repr

/-- Model of a `c10d::ProcessGroup`. Backends are owned shared objects;
`backends` is the heap from backend identity to backend state, and the
two indices `deviceTypeToBackend` (resolution cache) and
`backendTypeToBackend` (canonical storage) hold references (identities)
into it, mirroring the two `intrusive_ptr` maps of the source.
`deviceTypeToBackendType` is the static device-type to backend-type
configuration. Device types and backend types are modelled as `Nat`
tags. -/
structure ProcessGroup where
  store : Option Nat
  rank : Int
  groupSize : Int
  pg_desc : String
  backends : List (Nat × Backend)
  deviceTypeToBackend : List (Nat × Nat)
  deviceTypeToBackendType : List (Nat × Nat)
  backendTypeToBackend : List (Nat × Nat)
  deriving DecidableEq, Repr

/-- Model of `ProcessGroup::getBackend(deviceType)`: return the cached
backend for the device type if present; else look up the configured
backend type (`TORCH_CHECK` failure when absent); else look up the live
backend for that backend type (`TORCH_CHECK` failure when absent),
cache it under the device type and return it. -/
def ProcessGroup.getBackend (pg : ProcessGroup) (deviceType : Nat) :
    Except String (Nat × ProcessGroup) :=
  match alookup pg.deviceTypeToBackend deviceType with
  | some bid => .ok (bid, pg)
  | none =>
    match alookup pg.deviceTypeToBackendType deviceType with
    | none =>
      .error ("No backend type associated with device type " ++ toString deviceType)
    | some backendType =>
      match alookup pg.backendTypeToBackend backendType with
      | some bid =>
        .ok (bid, { pg with
          deviceTypeToBackend := pg.deviceTypeToBackend ++ [(deviceType, bid)] })
      | none =>
        .error ("Could not retrieve or create the backend " ++ toString backendType
          ++ " for device type " ++ toString deviceType)

/-- Model of `ProcessGroup::getGroupName`: `TORCH_CHECK` failure when
the device-type index is empty; otherwise the group UID of the backend
referenced by its first entry. (The dangling-reference error case is a
model artifact; in the source the cached pointer is always valid.) -/
def ProcessGroup.getGroupName (pg : ProcessGroup) : Except String String :=
  match pg.deviceTypeToBackend with
  | [] => .error "ProcessGroup name not set"
  | (_, bid) :: _ =>
    match alookup pg.backends bid with
    | some b => .ok b.groupUid
    | none => .error "dangling backend reference"

/-- The `setGroupUid` mutation applied to a backend. -/
def setUidFn (n : String) (b : Backend) : Backend := { b with groupUid := n }

/-- The `setGroupDesc` mutation applied to a backend. -/
def setDescFn (d : String) (b : Backend) : Backend := { b with groupDesc := d }

/-- The `enableCollectivesTiming` mutation applied to a backend. -/
def enableTimingFn (b : Backend) : Backend := { b with timingEnabled := true }

/-- Model of `ProcessGroup::setGroupName`: iterate over the device-type
index and set the group UID on each referenced backend. -/
def ProcessGroup.setGroupName (pg : ProcessGroup) (n : String) : ProcessGroup :=
  { pg with backends :=
      pg.deviceTypeToBackend.foldl (fun h e => aupdate (setUidFn n) h e.2) pg.backends }

/-- Model of `ProcessGroup::getGroupDesc`: the independently stored
description; total, never fails. -/
def ProcessGroup.getGroupDesc (pg : ProcessGroup) : String := pg.pg_desc

/-- Model of `ProcessGroup::setGroupDesc`: store the description on the
group, then also set it on each backend in the device-type index. -/
def ProcessGroup.setGroupDesc (pg : ProcessGroup) (d : String) : ProcessGroup :=
  { pg with
    pg_desc := d,
    backends :=
      pg.deviceTypeToBackend.foldl (fun h e => aupdate (setDescFn d) h e.2) pg.backends }

/-- Model of `ProcessGroup::enableCollectivesTiming`: enable the timing
flag on each backend in the device-type index. -/
def ProcessGroup.enableCollectivesTiming (pg : ProcessGroup) : ProcessGroup :=
  { pg with backends :=
      pg.deviceTypeToBackend.foldl (fun h e => aupdate enableTimingFn h e.2) pg.backends }

/-- Model of `ProcessGroup::release_resources`: reset the store
reference and clear both backend indices; the stored description (and
everything else) is untouched. -/
def ProcessGroup.release_resources (pg : ProcessGroup) : ProcessGroup :=
  { pg with store := none, deviceTypeToBackend := [], backendTypeToBackend := [] }

/-- Recognizer for the teardown leak warning event. -/
def isWarnEvent : TeardownEvent → Bool
  | .warnUnwaited _ => true
  | _ => false

/-- Recognizer for a handle-release event. -/
def isReleaseEvent : TeardownEvent → Bool
  | .release _ => true
  | _ => false

/-- Recognizer for a blocking wait event. -/
def isWaitEvent : TeardownEvent → Bool
  | .wait _ => true
  | _ => false

/- General lemmas about the association-list operations. -/

theorem alookup_append_of_none {α : Type} (r l : List (Nat × α)) (k : Nat)
    (h : alookup r k = none) : alookup (r ++ l) k = alookup l k := by
  induction r with
  | nil => rfl
  | cons e rest ih =>
    obtain ⟨k1, v⟩ := e
    by_cases hk : k1 = k
    · simp [alookup, hk] at h
    · simp only [alookup, List.cons_append, if_neg hk] at h ⊢
      exact ih h

theorem alookup_aupdate {α : Type} (f : α → α) (h : List (Nat × α)) (key k : Nat) :
    alookup (aupdate f h key) k
      = if k = key then (alookup h k).map f else alookup h k := by
  induction h with
  | nil => simp [aupdate, alookup]
  | cons e rest ih =>
    obtain ⟨k1, v⟩ := e
    simp only [aupdate]
    by_cases h1 : k1 = key
    · rw [if_pos h1]
      by_cases h2 : k1 = k
      · have hk : k = key := by omega
        simp [alookup, h2, hk]
      · by_cases h3 : k = key
        · exact absurd (h1.trans h3.symm) h2
        · simp [alookup, h2, h3]
    · rw [if_neg h1]
      simp only [alookup, ih]
      by_cases h2 : k1 = k
      · have h3 : ¬ (k = key) := by omega
        simp [h2, h3]
      · simp [h2]

theorem alookup_foldl_aupdate {α : Type} (f : α → α) (hf : ∀ a, f (f a) = f a)
    (l : List (Nat × Nat)) (h : List (Nat × α)) (k : Nat) :
    alookup (l.foldl (fun acc e => aupdate f acc e.2) h) k
      = if k ∈ l.map (fun e => e.2) then (alookup h k).map f
        else alookup h k := by
  induction l generalizing h with
  | nil => simp
  | cons e rest ih =>
    rw [List.foldl_cons, ih, alookup_aupdate]
    simp only [List.map_cons, List.mem_cons]
    split_ifs with c1 c2 c3 <;>
      first
        | rfl
        | tauto
        | (cases alookup h k <;> simp [hf])

theorem registerInto_of_none (r : Registry) (key : Nat) (w : Work)
    (h : alookup r key = none) : registerInto r key w = r ++ [(key, [w])] := by
  induction r with
  | nil => rfl
  | cons e rest ih =>
    obtain ⟨k1, v⟩ := e
    by_cases hk : k1 = key
    · simp [alookup, hk] at h
    · simp only [alookup, if_neg hk] at h
      simp [registerInto, hk, ih h]

theorem registerInto_append_entry (r : Registry) (key : Nat) (cur : List Work)
    (w : Work) (h : alookup r key = none) :
    registerInto (r ++ [(key, cur)]) key w = r ++ [(key, cur ++ [w])] := by
  induction r with
  | nil => simp [registerInto]
  | cons e rest ih =>
    obtain ⟨k1, v⟩ := e
    by_cases hk : k1 = key
    · simp [alookup, hk] at h
    · simp only [alookup, if_neg hk] at h
      simp [registerInto, hk, ih h]

theorem eraseKey_append_self (r : Registry) (key : Nat) (cur : List Work)
    (h : alookup r key = none) : eraseKey (r ++ [(key, cur)]) key = r := by
  induction r with
  | nil => simp [eraseKey]
  | cons e rest ih =>
    obtain ⟨k1, v⟩ := e
    by_cases hk : k1 = key
    · simp [alookup, hk] at h
    · simp only [alookup, if_neg hk] at h
      simp [eraseKey, hk, ih h]

theorem eraseKey_subset (r : Registry) (key : Nat) :
    ∀ e ∈ eraseKey r key, e ∈ r := by
  induction r with
  | nil => intro e he; exact absurd he (List.not_mem_nil e)
  | cons hd rest ih =>
    obtain ⟨k1, v⟩ := hd
    intro e he
    by_cases hk : k1 = key
    · simp only [eraseKey, if_pos hk] at he
      exact List.mem_cons_of_mem _ he
    · simp only [eraseKey, if_neg hk] at he
      rcases List.mem_cons.mp he with h1 | h2
      · exact h1 ▸ List.mem_cons_self _ _
      · exact List.mem_cons_of_mem _ (ih e h2)

theorem registerInto_nonempty (r : Registry) (key : Nat) (w : Work)
    (h : ∀ e ∈ r, e.2 ≠ []) : ∀ e ∈ registerInto r key w, e.2 ≠ [] := by
  induction r with
  | nil =>
    intro e he
    simp only [registerInto, List.mem_singleton] at he
    subst he
    simp
  | cons hd rest ih =>
    obtain ⟨k1, v⟩ := hd
    intro e he
    by_cases hk : k1 = key
    · simp only [registerInto, if_pos hk] at he
      rcases List.mem_cons.mp he with h1 | h2
      · subst h1; simp
      · exact h (e) (List.mem_cons_of_mem _ h2)
    · simp only [registerInto, if_neg hk] at he
      rcases List.mem_cons.mp he with h1 | h2
      · exact h e (h1 ▸ List.mem_cons_self _ _)
      · exact ih (fun e' he' => h e' (List.mem_cons_of_mem _ he')) e h2

theorem pruneRegistry_nonempty (r : Registry) :
    ∀ e ∈ pruneRegistry r, e.2 ≠ [] := by
  induction r with
  | nil => intro e he; exact absurd he (List.not_mem_nil e)
  | cons hd rest ih =>
    obtain ⟨k1, v⟩ := hd
    intro e he
    by_cases hk : (v.filter keepWork).isEmpty
    · simp only [pruneRegistry, if_pos hk] at he
      exact ih e he
    · simp only [pruneRegistry, if_neg hk] at he
      rcases List.mem_cons.mp he with h1 | h2
      · subst h1
        simpa [List.isEmpty_iff] using hk
      · exact ih e h2

theorem pruneRegistry_eq_filterMap (r : Registry) :
    pruneRegistry r
      = (r.map (fun e => (e.1, e.2.filter keepWork))).filter
          (fun e => !e.2.isEmpty) := by
  induction r with
  | nil => rfl
  | cons hd rest ih =>
    obtain ⟨k1, v⟩ := hd
    by_cases hk : (v.filter keepWork).isEmpty
    · simp [pruneRegistry, hk, ih]
    · simp [pruneRegistry, hk, ih]

theorem foldl_add_length (r : Registry) (n : Nat) :
    r.foldl (fun total e => total + e.2.length) n
      = n + (r.map (fun e => e.2.length)).sum := by
  induction r generalizing n with
  | nil => simp
  | cons hd rest ih =>
    simp only [List.foldl_cons, List.map_cons, List.sum_cons, ih]
    omega

theorem get_work_registry_size_eq (s : WorkRegistry) :
    s.get_work_registry_size = (s.registry.map (fun e => e.2.length)).sum := by
  simpa using foldl_add_length s.registry 0

theorem pruneRegistry_size (r : Registry) :
    ((pruneRegistry r).map (fun e => e.2.length)).sum
      = (r.map (fun e => (e.2.filter keepWork).length)).sum := by
  induction r with
  | nil => rfl
  | cons hd rest ih =>
    obtain ⟨k1, v⟩ := hd
    by_cases hk : (v.filter keepWork).isEmpty
    · have h0 : (v.filter keepWork).length = 0 := by
        simpa [List.isEmpty_iff] using hk
      simp [pruneRegistry, hk, ih, h0]
    · simp [pruneRegistry, hk, ih]

/- Lemmas about repeated registration against one storage key. -/

theorem registerAll_nil (s : WorkRegistry) (t : Tensor) :
    registerAll s t [] = s := rfl

theorem registerAll_cons (s : WorkRegistry) (t : Tensor) (w : Work)
    (ws : List Work) :
    registerAll s t (w :: ws) = registerAll ((s.register_work t w).1) t ws := rfl

theorem registerAll_entry (s : WorkRegistry) (t : Tensor) (cur ws : List Work)
    (hs : t.has_storage = true) (h : alookup s.registry t.storageKey = none) :
    registerAll { s with registry := s.registry ++ [(t.storageKey, cur)] } t ws
      = { s with registry := s.registry ++ [(t.storageKey, cur ++ ws)] } := by
  induction ws generalizing cur with
  | nil => simp [registerAll_nil]
  | cons w rest ih =>
    rw [registerAll_cons]
    have hstep :
        (WorkRegistry.register_work
            { s with registry := s.registry ++ [(t.storageKey, cur)] } t w).1
          = { s with registry := s.registry ++ [(t.storageKey, cur ++ [w])] } := by
      simp [WorkRegistry.register_work, hs,
        registerInto_append_entry s.registry t.storageKey cur w h]
    rw [hstep, ih (cur ++ [w])]
    simp

theorem registerAll_from_none (s : WorkRegistry) (t : Tensor) (w : Work)
    (ws : List Work) (hs : t.has_storage = true)
    (h : alookup s.registry t.storageKey = none) :
    registerAll s t (w :: ws)
      = { s with registry := s.registry ++ [(t.storageKey, w :: ws)] } := by
  rw [registerAll_cons]
  have h1 : (s.register_work t w).1
      = { s with registry := s.registry ++ [(t.storageKey, [w])] } := by
    simp [WorkRegistry.register_work, hs,
      registerInto_of_none s.registry t.storageKey w h]
  rw [h1, registerAll_entry s t [w] ws hs h]
  simp

/- Lemmas about the teardown event trace. -/

theorem filter_warn_releases (ws : List Work) :
    (ws.map TeardownEvent.release).filter isWarnEvent = [] := by
  induction ws with
  | nil => rfl
  | cons w rest ih => simp [isWarnEvent, ih]

theorem filter_warn_flatMap (r : Registry) :
    (r.flatMap (fun e => e.2.map TeardownEvent.release)).filter isWarnEvent
      = [] := by
  induction r with
  | nil => rfl
  | cons e rest ih =>
    simp [List.flatMap_cons, List.filter_append, filter_warn_releases, ih]

theorem filter_wait_releases (ws : List Work) :
    (ws.map TeardownEvent.release).filter isWaitEvent = [] := by
  induction ws with
  | nil => rfl
  | cons w rest ih => simp [isWaitEvent, ih]

theorem filter_wait_flatMap (r : Registry) :
    (r.flatMap (fun e => e.2.map TeardownEvent.release)).filter isWaitEvent
      = [] := by
  induction r with
  | nil => rfl
  | cons e rest ih =>
    simp [List.flatMap_cons, List.filter_append, filter_wait_releases, ih]

theorem filter_release_releases (ws : List Work) :
    (ws.map TeardownEvent.release).filter isReleaseEvent
      = ws.map TeardownEvent.release := by
  induction ws with
  | nil => rfl
  | cons w rest ih => simp [isReleaseEvent, ih]

theorem filter_release_flatMap (r : Registry) :
    (r.flatMap (fun e => e.2.map TeardownEvent.release)).filter isReleaseEvent
      = r.flatMap (fun e => e.2.map TeardownEvent.release) := by
  induction r with
  | nil => rfl
  | cons e rest ih =>
    simp [List.flatMap_cons, List.filter_append, filter_release_releases, ih]

theorem length_flatMap_releases (r : Registry) :
    (r.flatMap (fun e => e.2.map TeardownEvent.release)).length
      = (r.map (fun e => e.2.length)).sum := by
  induction r with
  | nil => rfl
  | cons e rest ih => simp [List.flatMap_cons, ih]

/-- C1 (divergence evidence): the source's
`can_unregister_completed_works` returns the opposite of the specified
`canPrune()` on every environment with an available accelerator. With
the accelerator available and no capture in progress it returns false
(the spec says true), so the opportunistic prune in the register facade
does NOT run and a completed, defined work stays in the registry; with a
capture in progress it returns true (the spec says false), so the
facade prunes mid-capture. -/
theorem can_unregister_inverts_capture_check :
    WorkRegistry.can_unregister_completed_works ⟨true, false⟩ = false ∧
    canPrune_spec ⟨true, false⟩ = true ∧
    WorkRegistry.can_unregister_completed_works ⟨true, true⟩ = true ∧
    canPrune_spec ⟨true, true⟩ = false ∧
    (c10d_register_work ⟨true, false⟩ ⟨[(0, [⟨true, true, 1⟩])], false⟩
        ⟨true, 1⟩ ⟨true, false, 2⟩).1.registry
      = [(0, [⟨true, true, 1⟩]), (1, [⟨true, false, 2⟩])] ∧
    (c10d_register_work ⟨true, true⟩ ⟨[(0, [⟨true, true, 1⟩])], false⟩
        ⟨true, 1⟩ ⟨true, false, 2⟩).1.registry
      = [(1, [⟨true, false, 2⟩])] := by
  decide

/-- C2 counterexample: the claim says an UNDEFINED handle is kept by
`unregister_completed_works`; the code keeps only handles that are
defined and not completed, so a storage entry holding a single
undefined handle is removed entirely. -/
theorem unregister_drops_undefined_handle :
    (WorkRegistry.unregister_completed_works
        ⟨[(5, [⟨false, false, 7⟩])], false⟩).registry = [] ∧
    ¬ ((WorkRegistry.unregister_completed_works
        ⟨[(5, [⟨false, false, 7⟩])], false⟩).registry
      = [(5, [⟨false, false, 7⟩])]) := by
  decide

/-- C2 (amended): `unregister_completed_works` keeps in each storage
entry exactly the handles that are defined and not completed (dropping
completed ones and also undefined ones), preserving relative order;
an entry is removed entirely when no handle remains; and
`get_work_registry_size` accurately reflects the counts, including on
the concrete scenario {completed, completed, pending} (3 handles before,
exactly the pending one under the key after, size 1) and the
all-completed scenario (key removed entirely). -/
theorem unregister_completed_works_spec (s : WorkRegistry) :
    (s.unregister_completed_works).registry
      = (s.registry.map (fun e => (e.1, e.2.filter keepWork))).filter
          (fun e => !e.2.isEmpty) ∧
    (s.unregister_completed_works).get_work_registry_size
      = (s.registry.map (fun e => (e.2.filter keepWork).length)).sum ∧
    (WorkRegistry.unregister_completed_works
        ⟨[(0, [⟨true, true, 1⟩, ⟨true, true, 2⟩, ⟨true, false, 3⟩])], false⟩).registry
      = [(0, [⟨true, false, 3⟩])] ∧
    (WorkRegistry.unregister_completed_works
        ⟨[(1, [⟨true, true, 4⟩, ⟨true, true, 5⟩])], false⟩).registry = [] ∧
    WorkRegistry.get_work_registry_size
        ⟨[(0, [⟨true, true, 1⟩, ⟨true, true, 2⟩, ⟨true, false, 3⟩])], false⟩ = 3 ∧
    WorkRegistry.get_work_registry_size
        (WorkRegistry.unregister_completed_works
          ⟨[(0, [⟨true, true, 1⟩, ⟨true, true, 2⟩, ⟨true, false, 3⟩])], false⟩) = 1 := by
  refine ⟨pruneRegistry_eq_filterMap s.registry, ?_, by decide, by decide,
    by decide, by decide⟩
  rw [get_work_registry_size_eq]
  exact pruneRegistry_size s.registry

/-- C3 counterexample: a backend owned by the group but present only in
the backend-type index (not yet cached under a device type) does NOT
observe `setGroupName`: the setters iterate over the device-type index
only. -/
theorem setters_skip_uncached_backend :
    (ProcessGroup.setGroupName
        ⟨none, 0, 1, "", [(1, ⟨"orig", "", false⟩)], [], [], [(5, 1)]⟩
        "new").backends
      = [(1, ⟨"orig", "", false⟩)] ∧
    ("orig" : String) ≠ "new" := by
  refine ⟨rfl, by decide⟩

/-- C3 (amended): `setGroupName` / `setGroupDesc` /
`enableCollectivesTiming` broadcast the value to every backend cached
in the device-type index: any backend referenced by an entry of
`deviceTypeToBackend` observes the identical new group UID /
description / timing flag. (Backends present only in the backend-type
index are not updated.) -/
theorem setters_broadcast_to_cached_backends (pg : ProcessGroup) (n d : String)
    (dev bid : Nat) (b : Backend)
    (hmem : (dev, bid) ∈ pg.deviceTypeToBackend)
    (hb : alookup pg.backends bid = some b) :
    alookup (pg.setGroupName n).backends bid = some (setUidFn n b) ∧
    alookup (pg.setGroupDesc d).backends bid = some (setDescFn d b) ∧
    alookup (pg.enableCollectivesTiming).backends bid = some (enableTimingFn b) ∧
    (setUidFn n b).groupUid = n ∧
    (setDescFn d b).groupDesc = d ∧
    (enableTimingFn b).timingEnabled = true := by
  have hmem2 : bid ∈ pg.deviceTypeToBackend.map (fun e => e.2) :=
    List.mem_map_of_mem (fun e => e.2) hmem
  refine ⟨?_, ?_, ?_, rfl, rfl, rfl⟩
  · simp only [ProcessGroup.setGroupName]
    rw [alookup_foldl_aupdate (setUidFn n) (fun a => rfl), if_pos hmem2, hb]
    rfl
  · simp only [ProcessGroup.setGroupDesc]
    rw [alookup_foldl_aupdate (setDescFn d) (fun a => rfl), if_pos hmem2, hb]
    rfl
  · simp only [ProcessGroup.enableCollectivesTiming]
    rw [alookup_foldl_aupdate enableTimingFn (fun a => rfl), if_pos hmem2, hb]
    rfl

/-- C3 witness: a concrete group whose device-type index caches backend
1; after `setGroupName "new"` that backend's group UID is "new". -/
theorem setters_broadcast_to_cached_backends_witness :
    alookup (ProcessGroup.setGroupName
        ⟨none, 0, 2, "", [(1, ⟨"old", "", false⟩)], [(3, 1)], [], []⟩
        "new").backends 1
      = some ⟨"new", "", false⟩ :=
  (setters_broadcast_to_cached_backends
      ⟨none, 0, 2, "", [(1, ⟨"old", "", false⟩)], [(3, 1)], [], []⟩
      "new" "" 3 1 ⟨"old", "", false⟩ (by simp) rfl).1

/-- C4: registering K handles (in issuance order) against a buffer
with storage, starting from a registry holding nothing for that
storage, and then calling `wait_tensor` performs exactly those K
`wait()` calls in insertion order, returns the same buffer, and removes
the entry; a second `wait_tensor` on the same buffer waits on nothing
and again returns the buffer (idempotent drain), which also covers the
no-registered-handles case (K = 0). -/
theorem wait_tensor_drains_registered_works (s : WorkRegistry) (t : Tensor)
    (ws : List Work) (hs : t.has_storage = true)
    (h : alookup s.registry t.storageKey = none) :
    (c10d_wait_tensor (registerAll s t ws) t).1 = ws ∧
    (c10d_wait_tensor (registerAll s t ws) t).2.1 = t ∧
    alookup ((c10d_wait_tensor (registerAll s t ws) t).2.2).registry
        t.storageKey = none ∧
    (c10d_wait_tensor ((c10d_wait_tensor (registerAll s t ws) t).2.2) t).1
      = [] ∧
    (c10d_wait_tensor ((c10d_wait_tensor (registerAll s t ws) t).2.2) t).2.1
      = t := by
  cases ws with
  | nil =>
    rw [registerAll_nil]
    simp [c10d_wait_tensor, WorkRegistry.pop_works, h]
  | cons w rest =>
    rw [registerAll_from_none s t w rest hs h]
    have hlook : alookup (s.registry ++ [(t.storageKey, w :: rest)])
        t.storageKey = some (w :: rest) := by
      rw [alookup_append_of_none _ _ _ h]
      simp [alookup]
    have herase : eraseKey (s.registry ++ [(t.storageKey, w :: rest)])
        t.storageKey = s.registry :=
      eraseKey_append_self s.registry t.storageKey (w :: rest) h
    simp [c10d_wait_tensor, WorkRegistry.pop_works, hlook, herase, h]

/-- C4 witness: two handles registered against storage 4 are waited on
in insertion order by `wait_tensor`. -/
theorem wait_tensor_drains_registered_works_witness :
    (c10d_wait_tensor
        (registerAll ⟨[], false⟩ ⟨true, 4⟩ [⟨true, false, 1⟩, ⟨true, true, 2⟩])
        ⟨true, 4⟩).1
      = [⟨true, false, 1⟩, ⟨true, true, 2⟩] :=
  (wait_tensor_drains_registered_works ⟨[], false⟩ ⟨true, 4⟩
      [⟨true, false, 1⟩, ⟨true, true, 2⟩] rfl rfl).1

/-- C5: `getBackend` fails with the "no backend type" configuration
error when the device type has no configured backend type; fails with
the "could not retrieve" error when the configured backend type has no
live instance; on success resolves through the backend-type index,
caches the backend under the device type (so the cache now answers the
lookup) and returns it; and a cached device type is answered from the
cache directly. -/
theorem getBackend_resolution_spec (pg : ProcessGroup) (deviceType : Nat) :
    (alookup pg.deviceTypeToBackend deviceType = none →
      alookup pg.deviceTypeToBackendType deviceType = none →
      pg.getBackend deviceType
        = .error ("No backend type associated with device type "
            ++ toString deviceType)) ∧
    (∀ bt, alookup pg.deviceTypeToBackend deviceType = none →
      alookup pg.deviceTypeToBackendType deviceType = some bt →
      alookup pg.backendTypeToBackend bt = none →
      pg.getBackend deviceType
        = .error ("Could not retrieve or create the backend " ++ toString bt
            ++ " for device type " ++ toString deviceType)) ∧
    (∀ bt bid, alookup pg.deviceTypeToBackend deviceType = none →
      alookup pg.deviceTypeToBackendType deviceType = some bt →
      alookup pg.backendTypeToBackend bt = some bid →
      pg.getBackend deviceType = .ok (bid, { pg with
        deviceTypeToBackend := pg.deviceTypeToBackend ++ [(deviceType, bid)] }) ∧
      alookup (pg.deviceTypeToBackend ++ [(deviceType, bid)]) deviceType
        = some bid) ∧
    (∀ bid, alookup pg.deviceTypeToBackend deviceType = some bid →
      pg.getBackend deviceType = .ok (bid, pg)) := by
  refine ⟨?_, ?_, ?_, ?_⟩
  · intro h1 h2
    simp [ProcessGroup.getBackend, h1, h2]
  · intro bt h1 h2 h3
    simp [ProcessGroup.getBackend, h1, h2, h3]
  · intro bt bid h1 h2 h3
    refine ⟨by simp [ProcessGroup.getBackend, h1, h2, h3], ?_⟩
    rw [alookup_append_of_none _ _ _ h1]
    simp [alookup]
  · intro bid h1
    simp [ProcessGroup.getBackend, h1]

/-- C5 witness: a device type with no configured backend type makes
`getBackend` fail with the configuration error. -/
theorem getBackend_resolution_spec_witness :
    ProcessGroup.getBackend ⟨none, 0, 2, "", [], [], [], []⟩ 3
      = .error ("No backend type associated with device type "
          ++ toString 3) :=
  (getBackend_resolution_spec ⟨none, 0, 2, "", [], [], [], []⟩ 3).1 rfl rfl

/-- C6 counterexample: with a backend attached in the backend-type
index but the device-type index empty, `getGroupName` fails with
"ProcessGroup name not set" instead of returning that backend's group
UID: the name is derived from the device-type index, not the
backend-type index. -/
theorem getGroupName_ignores_backendType_index :
    ProcessGroup.getGroupName
        ⟨none, 0, 1, "", [(1, ⟨"uid", "", false⟩)], [], [], [(5, 1)]⟩
      = .error "ProcessGroup name not set" ∧
    (⟨none, 0, 1, "", [(1, ⟨"uid", "", false⟩)], [], [], [(5, 1)]⟩
        : ProcessGroup).backendTypeToBackend ≠ [] ∧
    ProcessGroup.getGroupName
        ⟨none, 0, 1, "", [(1, ⟨"uid", "", false⟩)], [], [], [(5, 1)]⟩
      ≠ .ok "uid" := by
  refine ⟨rfl, ?_, ?_⟩
  · intro hc
    exact List.noConfusion hc
  · intro hc
    rw [show ProcessGroup.getGroupName
        ⟨none, 0, 1, "", [(1, ⟨"uid", "", false⟩)], [], [], [(5, 1)]⟩
      = Except.error "ProcessGroup name not set" from rfl] at hc
    exact Except.noConfusion hc

/-- C6 (amended): `getGroupName` derives the name from the first entry
of the DEVICE-type index (the group UID of the backend it references)
and fails loudly with "ProcessGroup name not set" whenever the
device-type index is empty — in particular after `release_resources`,
which clears the store reference and both backend indices. -/
theorem getGroupName_device_index_spec (pg : ProcessGroup) :
    (pg.deviceTypeToBackend = [] →
      pg.getGroupName = .error "ProcessGroup name not set") ∧
    (∀ dv bid rest b, pg.deviceTypeToBackend = (dv, bid) :: rest →
      alookup pg.backends bid = some b →
      pg.getGroupName = .ok b.groupUid) ∧
    pg.release_resources.getGroupName
      = .error "ProcessGroup name not set" := by
  refine ⟨?_, ?_, rfl⟩
  · intro h
    simp [ProcessGroup.getGroupName, h]
  · intro dv bid rest b h1 h2
    simp [ProcessGroup.getGroupName, h1, h2]

/-- C6 witness: a concrete group whose device-type index references
backend 2 yields that backend's group UID. -/
theorem getGroupName_device_index_spec_witness :
    ProcessGroup.getGroupName
        ⟨none, 0, 1, "", [(2, ⟨"uid", "", false⟩)], [(7, 2)], [], []⟩
      = .ok "uid" :=
  (getGroupName_device_index_spec
      ⟨none, 0, 1, "", [(2, ⟨"uid", "", false⟩)], [(7, 2)], [], []⟩).2.1
    7 2 [] ⟨"uid", "", false⟩ rfl rfl

/-- C7: every registry operation — registration of a handle, pop of a
buffer's works, pruning of completed works, and the register facade
(which may prune and then register) — preserves the invariant that no
storage entry holds an empty handle list. -/
theorem registry_entries_nonempty_invariant (s : WorkRegistry) (t : Tensor)
    (w : Work) (env : AccelEnv) (h : ∀ e ∈ s.registry, e.2 ≠ []) :
    (∀ e ∈ ((s.register_work t w).1).registry, e.2 ≠ []) ∧
    (∀ e ∈ ((s.pop_works t).2).registry, e.2 ≠ []) ∧
    (∀ e ∈ (s.unregister_completed_works).registry, e.2 ≠ []) ∧
    (∀ e ∈ ((c10d_register_work env s t w).1).registry, e.2 ≠ []) := by
  have hreg : ∀ (s1 : WorkRegistry), (∀ e ∈ s1.registry, e.2 ≠ []) →
      ∀ e ∈ ((s1.register_work t w).1).registry, e.2 ≠ [] := by
    intro s1 h1 e he
    by_cases hs : t.has_storage = false
    · simp only [WorkRegistry.register_work, if_pos hs] at he
      exact h1 e he
    · simp only [WorkRegistry.register_work, if_neg hs] at he
      exact registerInto_nonempty s1.registry t.storageKey w h1 e he
  refine ⟨hreg s h, ?_, ?_, ?_⟩
  · intro e he
    cases hl : alookup s.registry t.storageKey with
    | none =>
      simp only [WorkRegistry.pop_works, hl] at he
      exact h e he
    | some ws =>
      simp only [WorkRegistry.pop_works, hl] at he
      exact h e (eraseKey_subset s.registry t.storageKey e he)
  · exact fun e he => pruneRegistry_nonempty s.registry e he
  · unfold c10d_register_work
    by_cases hc : WorkRegistry.can_unregister_completed_works env = true
    · rw [if_pos hc]
      exact hreg s.unregister_completed_works
        (fun e he => pruneRegistry_nonempty s.registry e he)
    · rw [if_neg hc]
      exact hreg s h

/-- C7 witness: registering a new handle against storage 2 of a
well-formed registry never produces the entry (2, []). -/
theorem registry_entries_nonempty_invariant_witness :
    (2, ([] : List Work)) ∉
      ((WorkRegistry.register_work ⟨[(2, [⟨true, false, 5⟩])], false⟩
          ⟨true, 2⟩ ⟨true, false, 6⟩).1).registry :=
  fun hmem =>
    (registry_entries_nonempty_invariant ⟨[(2, [⟨true, false, 5⟩])], false⟩
        ⟨true, 2⟩ ⟨true, false, 6⟩ ⟨false, false⟩
        (by intro e he; rw [List.mem_singleton] at he; subst he; simp)).1
      (2, []) hmem rfl

/-- C8: registering a handle against a buffer with no backing storage
is a no-op on the registry that does not raise an error and does not
change `get_work_registry_size`; it emits the warning exactly when it
has not been emitted before (one-time), and a repeated storage-less
registration emits no second warning. -/
theorem register_work_no_storage_noop (s : WorkRegistry) (t : Tensor)
    (w : Work) (h : t.has_storage = false) :
    ((s.register_work t w).1).registry = s.registry ∧
    ((s.register_work t w).1).get_work_registry_size
      = s.get_work_registry_size ∧
    (s.register_work t w).2 = !s.warned_no_storage ∧
    (((s.register_work t w).1).register_work t w).2 = false := by
  simp [WorkRegistry.register_work, h, WorkRegistry.get_work_registry_size]

/-- C8 witness: a storage-less registration on a fresh registry leaves
the map unchanged and emits the one-time warning. -/
theorem register_work_no_storage_noop_witness :
    ((WorkRegistry.register_work ⟨[(3, [⟨true, false, 1⟩])], false⟩
        ⟨false, 9⟩ ⟨true, false, 2⟩).1).registry
      = [(3, [⟨true, false, 1⟩])] ∧
    (WorkRegistry.register_work ⟨[(3, [⟨true, false, 1⟩])], false⟩
        ⟨false, 9⟩ ⟨true, false, 2⟩).2 = true :=
  ⟨(register_work_no_storage_noop ⟨[(3, [⟨true, false, 1⟩])], false⟩
      ⟨false, 9⟩ ⟨true, false, 2⟩ rfl).1,
   (register_work_no_storage_noop ⟨[(3, [⟨true, false, 1⟩])], false⟩
      ⟨false, 9⟩ ⟨true, false, 2⟩ rfl).2.2.1⟩

/-- C9: at teardown with M >= 1 un-waited handles, the destructor's
event trace contains exactly one warning, carrying the count M; it
contains no blocking wait; every held handle reference is released
(one release event per handle); and with zero remaining handles no
warning is emitted. -/
theorem teardown_warns_and_releases (s : WorkRegistry) :
    (1 ≤ s.get_work_registry_size →
      s.teardown.filter isWarnEvent
        = [TeardownEvent.warnUnwaited s.get_work_registry_size]) ∧
    (s.get_work_registry_size = 0 →
      s.teardown.filter isWarnEvent = []) ∧
    s.teardown.filter isWaitEvent = [] ∧
    (s.teardown.filter isReleaseEvent).length
      = s.get_work_registry_size := by
  refine ⟨?_, ?_, ?_, ?_⟩
  · intro h1
    have hpos : s.get_work_registry_size > 0 := h1
    simp only [WorkRegistry.teardown, if_pos hpos, List.filter_append,
      filter_warn_flatMap, List.append_nil]
    simp [isWarnEvent]
  · intro h0
    have hneg : ¬ s.get_work_registry_size > 0 := by omega
    simp [WorkRegistry.teardown, hneg, List.filter_append,
      filter_warn_flatMap]
  · by_cases hpos : s.get_work_registry_size > 0
    · simp [WorkRegistry.teardown, hpos, List.filter_append,
        filter_wait_flatMap, isWaitEvent]
    · simp [WorkRegistry.teardown, hpos, List.filter_append,
        filter_wait_flatMap]
  · by_cases hpos : s.get_work_registry_size > 0
    · simp only [WorkRegistry.teardown, if_pos hpos, List.filter_append,
        filter_release_flatMap]
      have hw : ([TeardownEvent.warnUnwaited s.get_work_registry_size]).filter
          isReleaseEvent = [] := by
        simp [isReleaseEvent]
      rw [hw, List.nil_append, length_flatMap_releases,
        get_work_registry_size_eq]
    · simp only [WorkRegistry.teardown, if_neg hpos, List.filter_append,
        filter_release_flatMap, List.nil_append]
      rw [length_flatMap_releases, get_work_registry_size_eq]

/-- C9 witness: a registry holding two un-waited handles warns exactly
once with count 2 at teardown. -/
theorem teardown_warns_and_releases_witness :
    (WorkRegistry.teardown
        ⟨[(0, [⟨true, false, 1⟩, ⟨true, false, 2⟩])], false⟩).filter
      isWarnEvent = [TeardownEvent.warnUnwaited 2] :=
  (teardown_warns_and_releases
      ⟨[(0, [⟨true, false, 1⟩, ⟨true, false, 2⟩])], false⟩).1 (by decide)

/-- C10: the group description is stored on the group itself:
`setGroupDesc d` followed by `getGroupDesc` returns `d` for every
group (including one with zero backends attached), and still after
`release_resources`; `getGroupDesc` is total and never fails. -/
theorem groupDesc_stored_independently (pg : ProcessGroup) (d : String) :
    (pg.setGroupDesc d).getGroupDesc = d ∧
    ((pg.setGroupDesc d).release_resources).getGroupDesc = d :=
  ⟨rfl, rfl⟩

end C10d
